import Mathlib

/-!
Verification of the apify-compare pipeline (Actor Scout + Runner).

The definitions below shallowly embed the combined scout-and-runner program:
the fixed evaluation weights and weighted overall score (`WEIGHTS`,
`overallScoreRaw`, `roundedOverallScore`), the ranking step
(`ranked`), the final output sort (`sortedResults`), the resolution of the
`maxActors` parameter, and the bounded-attempt execution loop of
`processActor`.  Numbers are modelled as exact rationals, JSON objects as
association lists, and the external collaborators (LLM generation, actor
invocation) as an oracle of per-attempt events.
-/

namespace ApifyCompare

/-- Source: `const MAX_ATTEMPTS = 5;` -/
def MAX_ATTEMPTS : Nat := 5

/-- A JSON object value.  The control loop never inspects the contents of
synthesized inputs, so an association list of string fields suffices. -/
def JsonObject : Type := List (String × String)

instance : DecidableEq JsonObject := by
  unfold JsonObject
  infer_instance

/-- The empty JSON object `{}`. -/
def emptyObject : JsonObject := []

/-- Source: `interface Input { query: string; maxActors?: number; }` -/
structure Input where
  query : String
  maxActors : Option Nat

/-- Source: `const maxActors = input.maxActors ?? 3;` (combined pipeline and runner). -/
def resolveMaxActors (input : Input) : Nat :=
  input.maxActors.getD 3

/-- Source: `interface EvaluationScores` : the seven criterion scores returned by the
evaluation model. -/
structure EvaluationScores where
  intentMatch : ℚ
  documentation : ℚ
  pricing : ℚ
  reliability : ℚ
  maintenance : ℚ
  communityTrust : ℚ
  inputComplexity : ℚ
deriving DecidableEq

/-- The shape of the `WEIGHTS` constant. -/
structure Weights where
  intentMatch : ℚ
  documentation : ℚ
  pricing : ℚ
  reliability : ℚ
  maintenance : ℚ
  communityTrust : ℚ
  inputComplexity : ℚ

/-- Source: `const WEIGHTS = { intentMatch: 0.30, documentation: 0.15, pricing: 0.15,
reliability: 0.20, maintenance: 0.10, communityTrust: 0.05,
inputComplexity: 0.05 };` -/
def WEIGHTS : Weights :=
  { intentMatch := 0.30
    documentation := 0.15
    pricing := 0.15
    reliability := 0.20
    maintenance := 0.10
    communityTrust := 0.05
    inputComplexity := 0.05 }

/-- Sum of the seven weights. -/
def weightsSum (w : Weights) : ℚ :=
  w.intentMatch + w.documentation + w.pricing + w.reliability
    + w.maintenance + w.communityTrust + w.inputComplexity

/-- JavaScript `Math.round` on nonnegative values: round half up. -/
def jsRound (q : ℚ) : ℤ := ⌊q + 1/2⌋

/-- The raw weighted sum computed by `evaluateActors`:
`scores.intentMatch * WEIGHTS.intentMatch + ...`. -/
def overallScoreRaw (s : EvaluationScores) : ℚ :=
  s.intentMatch * WEIGHTS.intentMatch
    + s.documentation * WEIGHTS.documentation
    + s.pricing * WEIGHTS.pricing
    + s.reliability * WEIGHTS.reliability
    + s.maintenance * WEIGHTS.maintenance
    + s.communityTrust * WEIGHTS.communityTrust
    + s.inputComplexity * WEIGHTS.inputComplexity

/-- Source: `overallScore: Math.round(overallScore * 10) / 10` : the weighted sum
rounded to one decimal place. -/
def roundedOverallScore (s : EvaluationScores) : ℚ :=
  (jsRound (overallScoreRaw s * 10) : ℚ) / 10

/-- Source: `interface EvaluationResult` : one scored candidate, as pushed by
`evaluateActors`. -/
structure EvaluationResult where
  actorId : String
  username : String
  name : String
  title : String
  description : String
  url : String
  scores : EvaluationScores
  overallScore : ℚ
  strengths : List String
  weaknesses : List String
  recommendation : String
deriving DecidableEq

/-- One `results.push({...})` of `evaluateActors`: assembles the evaluation
record, computing `overallScore` as the rounded weighted sum. -/
def mkEvaluationResult (username name title description url : String)
    (scores : EvaluationScores) (strengths weaknesses : List String)
    (recommendation : String) : EvaluationResult :=
  { actorId := username ++ "/" ++ name
    username := username
    name := name
    title := title
    description := description
    url := url
    scores := scores
    overallScore := roundedOverallScore scores
    strengths := strengths
    weaknesses := weaknesses
    recommendation := recommendation }

/-- The comparison used by the ranking sort
`(a, b) => b.overallScore - a.overallScore`: `a` may stay before `b`
exactly when `b.overallScore ≤ a.overallScore`. -/
def scoreDescLE (a b : EvaluationResult) : Bool :=
  decide (b.overallScore ≤ a.overallScore)

/-- Source: `const ranked = evaluations.sort((a, b) => b.overallScore -
a.overallScore).slice(0, maxActors);` — JavaScript `Array.prototype.sort`
is stable, modelled by the stable `List.mergeSort`. -/
def ranked (evaluations : List EvaluationResult) (maxActors : Nat) :
    List EvaluationResult :=
  (evaluations.mergeSort scoreDescLE).take maxActors

/-- The top-K selection of the combined pipeline: rank the evaluations with
`K = input.maxActors ?? 3`. -/
def pipelineTopK (input : Input) (evaluations : List EvaluationResult) :
    List EvaluationResult :=
  ranked evaluations (resolveMaxActors input)

/-- Source: `interface AttemptRecord { attempt: number; input: object; error?: string; }` -/
structure AttemptRecord where
  attempt : Nat
  input : JsonObject
  error : Option String
deriving DecidableEq

/-- Source: `interface ComparisonResult` : the per-candidate outcome record. -/
structure ComparisonResult where
  actorId : String
  actorName : String
  actorTitle : String
  actorDescription : String
  inputSchema : JsonObject
  attempts : Nat
  attemptHistory : List AttemptRecord
  finalInput : Option JsonObject
  runId : Option String
  runStatus : Option String
  runDurationSecs : Option ℚ
  output : Option (List JsonObject)
  success : Bool
  scores : Option EvaluationScores
  overallScore : Option ℚ
  strengths : Option (List String)
  weaknesses : Option (List String)
  recommendation : Option String
deriving DecidableEq

/-- The candidate descriptor handed to `processActor` (`storeActor`), carrying
its evaluation as `_evaluation`. -/
structure StoreActor where
  username : String
  name : String
  title : String
  description : String
  evaluation : Option EvaluationResult

/-- The completed-run object returned by `client.actor(actorId).call(...)`:
its terminal status, id, duration statistics, and (optionally) the id of its
default dataset.  The dataset listing is a separate call with its own failure
mode, so it is not part of this object. -/
structure RunInfo where
  status : String
  id : String
  durationMillis : Option ℚ
  defaultDatasetId : Option String
deriving DecidableEq

deriving instance DecidableEq for Except

/-- What the external collaborators do on one attempt of the loop:
the `generateText` call rejects (escaping to the outer catch of
`processActor`), the generation response fails to parse as JSON, the
invocation call throws, or the invocation returns a run with a terminal
status.  In the last case, `listing` is the behaviour of the subsequent
`client.dataset(...).listItems({ limit: 5 })` call, should the success path
make it: it returns the sample items or rejects with a message (handled by the
same inner catch, after `result.success` has already been set). -/
inductive AttemptEvent where
  | generationThrow (message : String)
  | parseFailure (rawText : String)
  | invokeError (input : JsonObject) (message : String)
  | runFinished (input : JsonObject) (run : RunInfo)
      (listing : Except String (List JsonObject))
deriving DecidableEq

/-- Source: ``lastError = `Failed to parse LLM response as JSON: ${text.substring(0, 200)}` `` -/
def parseFailureMessage (rawText : String) : String :=
  "Failed to parse LLM response as JSON: " ++ rawText.take 200

/-- Source: ``lastError = `Run completed with status: ${run.status}` `` -/
def runFinishedMessage (status : String) : String :=
  "Run completed with status: " ++ status

/-- Whether the loop retries after this attempt: parse failures and thrown
invocation errors retry; a finished run retries unless its status is
`SUCCEEDED` (stop with success) or `TIMED-OUT` (break); a `generateText`
rejection aborts the whole loop via the outer catch. -/
def retryableEvent : AttemptEvent → Bool
  | .generationThrow _ => false
  | .parseFailure _ => true
  | .invokeError _ _ => true
  | .runFinished _ run _ => !(run.status == "SUCCEEDED") && !(run.status == "TIMED-OUT")

/-- The attempt record appended during iteration `a` of the loop, as a
function of that iteration's event.  A `generateText` rejection is recorded by
the outer catch as an attempt-0 record; a successful run's record is
error-free unless its dataset listing call rejects, in which case the inner
catch records the listing error (with `success` already set). -/
def recordOf (a : Nat) : AttemptEvent → AttemptRecord
  | .generationThrow message => ⟨0, emptyObject, some message⟩
  | .parseFailure rawText => ⟨a, emptyObject, some (parseFailureMessage rawText)⟩
  | .invokeError input message => ⟨a, input, some message⟩
  | .runFinished input run listing =>
      if run.status = "SUCCEEDED" then
        match run.defaultDatasetId with
        | none => ⟨a, input, none⟩
        | some _ =>
            match listing with
            | .ok _ => ⟨a, input, none⟩
            | .error message => ⟨a, input, some message⟩
      else ⟨a, input, some (runFinishedMessage run.status)⟩

/-- The iterative agent loop of `processActor`:
`while (attempt < MAX_ATTEMPTS && !result.success) { ... }`.
The fuel argument equals `MAX_ATTEMPTS - attempt` at every call, so it never
runs out before the loop guard fails; it only makes the recursion structural.
A `generateText` rejection escapes the loop to the outer catch, which records
an attempt-0 error and returns.  On a `SUCCEEDED` run, `success`, `finalInput`
and the run metadata are set first; only then is the dataset listing attempted
(when the run has a default dataset), and a listing rejection is handled by
the inner catch, which records that attempt with the listing error while
`success` stays `true`. -/
def execLoop (events : Nat → AttemptEvent) :
    Nat → Nat → ComparisonResult → ComparisonResult
  | 0, _, result => result
  | fuel + 1, attempt, result =>
    if attempt < MAX_ATTEMPTS ∧ result.success = false then
      let a := attempt + 1
      let result := { result with attempts := a }
      match events a with
      | .generationThrow message =>
          { result with attemptHistory :=
              result.attemptHistory ++ [⟨0, emptyObject, some message⟩] }
      | .parseFailure rawText =>
          execLoop events fuel a
            { result with attemptHistory :=
                result.attemptHistory ++ [⟨a, emptyObject, some (parseFailureMessage rawText)⟩] }
      | .invokeError input message =>
          execLoop events fuel a
            { result with attemptHistory :=
                result.attemptHistory ++ [⟨a, input, some message⟩] }
      | .runFinished input run listing =>
          if run.status = "SUCCEEDED" then
            let result := { result with
              success := true
              finalInput := some input
              runId := some run.id
              runStatus := some run.status
              runDurationSecs := run.durationMillis.map (fun d => d / 1000) }
            match run.defaultDatasetId with
            | none =>
                execLoop events fuel a
                  { result with attemptHistory :=
                      result.attemptHistory ++ [⟨a, input, none⟩] }
            | some _ =>
                match listing with
                | .ok items =>
                    execLoop events fuel a
                      { result with
                          output := some items
                          attemptHistory := result.attemptHistory ++ [⟨a, input, none⟩] }
                | .error message =>
                    execLoop events fuel a
                      { result with attemptHistory :=
                          result.attemptHistory ++ [⟨a, input, some message⟩] }
          else
            let result := { result with attemptHistory :=
                result.attemptHistory ++ [⟨a, input, some (runFinishedMessage run.status)⟩] }
            if run.status = "TIMED-OUT" then result
            else execLoop events fuel a result
    else result

/-- The freshly initialized `ComparisonResult` at the top of `processActor`,
copying the evaluation data. -/
def initResult (storeActor : StoreActor) : ComparisonResult :=
  { actorId := storeActor.username ++ "/" ++ storeActor.name
    actorName := storeActor.name
    actorTitle := if storeActor.title = "" then storeActor.name else storeActor.title
    actorDescription := storeActor.description
    inputSchema := emptyObject
    attempts := 0
    attemptHistory := []
    finalInput := none
    runId := none
    runStatus := none
    runDurationSecs := none
    output := none
    success := false
    scores := storeActor.evaluation.map (fun e => e.scores)
    overallScore := storeActor.evaluation.map (fun e => e.overallScore)
    strengths := storeActor.evaluation.map (fun e => e.strengths)
    weaknesses := storeActor.evaluation.map (fun e => e.weaknesses)
    recommendation := storeActor.evaluation.map (fun e => e.recommendation) }

/-- Model of `processActor`: fetch the default build's input schema
(`build?.actorDefinition?.input`).  The fetch itself may throw, in which case
the outer catch records a single attempt-0 record with the error; if it
returns no schema, a single attempt-0 record `'No input schema found'` is
recorded; otherwise the bounded-attempt loop runs starting at attempt 0. -/
def processActor (storeActor : StoreActor)
    (schemaFetch : Except String (Option JsonObject))
    (events : Nat → AttemptEvent) : ComparisonResult :=
  let result := initResult storeActor
  match schemaFetch with
  | .error message =>
      { result with attemptHistory := [⟨0, emptyObject, some message⟩] }
  | .ok none =>
      { result with attemptHistory := [⟨0, emptyObject, some "No input schema found"⟩] }
  | .ok (some schema) =>
      execLoop events MAX_ATTEMPTS 0 { result with inputSchema := schema }

/-- One entry of the batch `actorsToRun.map(processActor)`: the candidate, its
schema-fetch behaviour, and its collaborator behaviour. -/
structure ActorTask where
  storeActor : StoreActor
  schemaFetch : Except String (Option JsonObject)
  events : Nat → AttemptEvent

/-- The fan-out step: each selected candidate is processed independently. -/
def runBatch (tasks : List ActorTask) : List ComparisonResult :=
  tasks.map (fun t => processActor t.storeActor t.schemaFetch t.events)

/-- The sort key of the final output sort: `(r.overallScore ?? 0)`. -/
def sortKey (r : ComparisonResult) : ℚ :=
  r.overallScore.getD 0

/-- The comparison used by the final output sort
`(a, b) => (b.overallScore ?? 0) - (a.overallScore ?? 0)`. -/
def comparisonLE (a b : ComparisonResult) : Bool :=
  decide (sortKey b ≤ sortKey a)

/-- Source: `const sortedResults = comparisonResults.sort((a, b) =>
(b.overallScore ?? 0) - (a.overallScore ?? 0));` — again a stable sort. -/
def sortedResults (comparisonResults : List ComparisonResult) :
    List ComparisonResult :=
  comparisonResults.mergeSort comparisonLE

/-!  Loop invariants.  `LoopSpec events attempt r f` collects what holds of the
final state `f` of the attempt loop when it is entered at attempt counter
`attempt` in state `r`. -/

/-- Specification of a completed run of the attempt loop. -/
def LoopSpec (events : Nat → AttemptEvent) (attempt : Nat)
    (r f : ComparisonResult) : Prop :=
  (∃ t, f.attemptHistory = r.attemptHistory ++ t) ∧
  f.attemptHistory.length ≤ MAX_ATTEMPTS ∧
  f.attempts = f.attemptHistory.length ∧
  (∀ k, attempt < k → k ≤ f.attemptHistory.length →
    f.attemptHistory[k - 1]? = some (recordOf k (events k))) ∧
  (∀ k, attempt < k → k < f.attemptHistory.length →
    retryableEvent (events k) = true) ∧
  (f.success = false → f.attemptHistory.length < MAX_ATTEMPTS →
    (∃ input run listing,
      events f.attemptHistory.length = .runFinished input run listing ∧
        run.status = "TIMED-OUT") ∨
    (∃ message, events f.attemptHistory.length = .generationThrow message)) ∧
  (f.success = true →
    ∃ input run listing,
      events f.attemptHistory.length = .runFinished input run listing ∧
        run.status = "SUCCEEDED" ∧ f.finalInput = some input ∧
        attempt < f.attemptHistory.length) ∧
  (attempt < MAX_ATTEMPTS → attempt < f.attemptHistory.length)

/-- Once `result.success` is set, the while-loop guard fails and the loop
returns its state unchanged. -/
theorem execLoop_of_success (events : Nat → AttemptEvent) (fuel attempt : Nat)
    (r : ComparisonResult) (h : r.success = true) :
    execLoop events fuel attempt r = r := by
  cases fuel with
  | zero => rfl
  | succ fuel => simp [execLoop, h]

/-- A retryable attempt record always carries an error. -/
theorem recordOf_error_isSome_of_retryable (a : Nat) (e : AttemptEvent)
    (h : retryableEvent e = true) : (recordOf a e).error.isSome = true := by
  cases e with
  | generationThrow message => simp [recordOf]
  | parseFailure rawText => simp [recordOf]
  | invokeError input message => simp [recordOf]
  | runFinished input run listing =>
      simp only [retryableEvent, Bool.and_eq_true, Bool.not_eq_true',
        beq_eq_false_iff_ne, ne_eq] at h
      simp [recordOf, h.1]

/-- Lift the loop specification across one retryable iteration: if iteration
`attempt + 1` appended its record and the rest of the loop satisfies the
specification from there, the whole run satisfies it from `attempt`. -/
theorem LoopSpec.lift (events : Nat → AttemptEvent) (attempt : Nat)
    (r r1 f : ComparisonResult)
    (hhist : r1.attemptHistory =
      r.attemptHistory ++ [recordOf (attempt + 1) (events (attempt + 1))])
    (hlen : r.attemptHistory.length = attempt)
    (hretry : retryableEvent (events (attempt + 1)) = true)
    (hspec : LoopSpec events (attempt + 1) r1 f) :
    LoopSpec events attempt r f := by
  obtain ⟨⟨t, ht⟩, hmax, hatt, hrec, hretr, htime, hsucc, hstep⟩ := hspec
  have hlen1 : r1.attemptHistory.length = attempt + 1 := by
    simp [hhist, hlen]
  have hflen : attempt + 1 ≤ f.attemptHistory.length := by
    simp [ht, hlen1]
  refine ⟨⟨[recordOf (attempt + 1) (events (attempt + 1))] ++ t, by
      simp [ht, hhist]⟩, hmax, hatt, ?_, ?_, htime, ?_, ?_⟩
  · intro k hk1 hk2
    rcases Nat.lt_or_ge (attempt + 1) k with hk | hk
    · exact hrec k hk hk2
    · have hk' : k = attempt + 1 := by omega
      subst hk'
      have : f.attemptHistory[attempt]? = some (recordOf (attempt + 1) (events (attempt + 1))) := by
        rw [ht, hhist]
        rw [List.getElem?_append_left (by simp [hlen])]
        have := List.getElem?_concat_length r.attemptHistory
          (recordOf (attempt + 1) (events (attempt + 1)))
        rw [hlen] at this
        exact this
      simpa using this
  · intro k hk1 hk2
    rcases Nat.lt_or_ge (attempt + 1) k with hk | hk
    · exact hretr k hk hk2
    · have hk' : k = attempt + 1 := by omega
      subst hk'
      exact hretry
  · intro hs
    obtain ⟨input, run, listing, h1, h2, h3, h4⟩ := hsucc hs
    exact ⟨input, run, listing, h1, h2, h3, by omega⟩
  · intro _
    omega

/-- The loop specification for a terminal iteration that leaves the loop with
`success` still false: a timeout break or a `generateText` rejection caught
by the outer catch. -/
theorem LoopSpec.halted (events : Nat → AttemptEvent) (attempt : Nat)
    (r rT : ComparisonResult)
    (hhist : rT.attemptHistory =
      r.attemptHistory ++ [recordOf (attempt + 1) (events (attempt + 1))])
    (hlen : r.attemptHistory.length = attempt)
    (hatts : rT.attempts = attempt + 1)
    (hsucc : rT.success = false)
    (hguard : attempt < MAX_ATTEMPTS)
    (hstop : (∃ input run listing,
        events (attempt + 1) = .runFinished input run listing ∧
          run.status = "TIMED-OUT") ∨
      (∃ message, events (attempt + 1) = .generationThrow message)) :
    LoopSpec events attempt r rT := by
  have hlenT : rT.attemptHistory.length = attempt + 1 := by
    simp [hhist, hlen]
  refine ⟨⟨[recordOf (attempt + 1) (events (attempt + 1))], hhist⟩,
    ?_, ?_, ?_, ?_, ?_, ?_, ?_⟩
  · omega
  · rw [hatts, hlenT]
  · intro k hk1 hk2
    rw [hlenT] at hk2
    have hk3 : k = attempt + 1 := by omega
    subst hk3
    have hc := List.getElem?_concat_length r.attemptHistory
      (recordOf (attempt + 1) (events (attempt + 1)))
    rw [hlen] at hc
    rw [hhist]
    simpa using hc
  · intro k hk1 hk2
    rw [hlenT] at hk2
    omega
  · intro _ _
    rw [hlenT]
    exact hstop
  · intro h
    rw [hsucc] at h
    cases h
  · intro _
    omega

/-- The loop specification for a terminal `SUCCEEDED` iteration, whatever the
outcome of the dataset listing. -/
theorem LoopSpec.succeeded (events : Nat → AttemptEvent) (attempt : Nat)
    (r rS : ComparisonResult) (input : JsonObject) (run : RunInfo)
    (listing : Except String (List JsonObject))
    (hev : events (attempt + 1) = .runFinished input run listing)
    (hst : run.status = "SUCCEEDED")
    (hhist : rS.attemptHistory =
      r.attemptHistory ++ [recordOf (attempt + 1) (events (attempt + 1))])
    (hlen : r.attemptHistory.length = attempt)
    (hatts : rS.attempts = attempt + 1)
    (hsucc : rS.success = true)
    (hfin : rS.finalInput = some input)
    (hguard : attempt < MAX_ATTEMPTS) :
    LoopSpec events attempt r rS := by
  have hlenS : rS.attemptHistory.length = attempt + 1 := by
    simp [hhist, hlen]
  refine ⟨⟨[recordOf (attempt + 1) (events (attempt + 1))], hhist⟩,
    ?_, ?_, ?_, ?_, ?_, ?_, ?_⟩
  · omega
  · rw [hatts, hlenS]
  · intro k hk1 hk2
    rw [hlenS] at hk2
    have hk3 : k = attempt + 1 := by omega
    subst hk3
    have hc := List.getElem?_concat_length r.attemptHistory
      (recordOf (attempt + 1) (events (attempt + 1)))
    rw [hlen] at hc
    rw [hhist]
    simpa using hc
  · intro k hk1 hk2
    rw [hlenS] at hk2
    omega
  · intro h
    rw [hsucc] at h
    cases h
  · intro _
    refine ⟨input, run, listing, ?_, hst, hfin, ?_⟩
    · rw [hlenS]
      exact hev
    · omega
  · intro _
    omega

/-- Master specification of the attempt loop, by induction on the remaining
fuel; `attempt + fuel = MAX_ATTEMPTS` holds at every call. -/
theorem execLoop_spec (events : Nat → AttemptEvent) :
    ∀ (fuel attempt : Nat) (r : ComparisonResult),
      attempt + fuel = MAX_ATTEMPTS →
      r.attemptHistory.length = attempt →
      r.attempts = attempt →
      r.success = false →
      LoopSpec events attempt r (execLoop events fuel attempt r) := by
  intro fuel
  induction fuel with
  | zero =>
    intro attempt r hAF hlen hatt hsucc
    have heq : execLoop events 0 attempt r = r := rfl
    rw [heq]
    refine ⟨⟨[], by simp⟩, by rw [hlen]; omega, by rw [hatt, hlen], ?_, ?_, ?_, ?_, ?_⟩
    · intro k hk1 hk2; rw [hlen] at hk2; omega
    · intro k hk1 hk2; rw [hlen] at hk2; omega
    · intro _ hlt; rw [hlen] at hlt; omega
    · intro hs; rw [hsucc] at hs; cases hs
    · intro hlt; omega
  | succ fuel ih =>
    intro attempt r hAF hlen hatt hsucc
    have hguard : attempt < MAX_ATTEMPTS := by omega
    cases hev : events (attempt + 1) with
    | generationThrow message =>
      have heq : execLoop events (fuel + 1) attempt r =
          { r with
              attempts := attempt + 1
              attemptHistory := r.attemptHistory ++
                [⟨0, emptyObject, some message⟩] } := by
        simp only [execLoop, if_pos (And.intro hguard hsucc), hev]
      rw [heq]
      refine LoopSpec.halted events attempt r _ ?_ hlen rfl (by simp [hsucc]) hguard
        (Or.inr ⟨message, hev⟩)
      rw [hev]
      rfl
    | parseFailure rawText =>
      have heq : execLoop events (fuel + 1) attempt r =
          execLoop events fuel (attempt + 1)
            { r with
                attempts := attempt + 1
                attemptHistory := r.attemptHistory ++
                  [⟨attempt + 1, emptyObject, some (parseFailureMessage rawText)⟩] } := by
        simp only [execLoop, if_pos (And.intro hguard hsucc), hev]
      rw [heq]
      exact LoopSpec.lift events attempt r
        { r with
            attempts := attempt + 1
            attemptHistory := r.attemptHistory ++
              [⟨attempt + 1, emptyObject, some (parseFailureMessage rawText)⟩] }
        _ (by rw [hev]; simp [recordOf]) hlen (by rw [hev]; rfl)
        (ih (attempt + 1) _ (by omega) (by simp [hlen]) rfl (by simp [hsucc]))
    | invokeError input message =>
      have heq : execLoop events (fuel + 1) attempt r =
          execLoop events fuel (attempt + 1)
            { r with
                attempts := attempt + 1
                attemptHistory := r.attemptHistory ++
                  [⟨attempt + 1, input, some message⟩] } := by
        simp only [execLoop, if_pos (And.intro hguard hsucc), hev]
      rw [heq]
      exact LoopSpec.lift events attempt r
        { r with
            attempts := attempt + 1
            attemptHistory := r.attemptHistory ++
              [⟨attempt + 1, input, some message⟩] }
        _ (by rw [hev]; simp [recordOf]) hlen (by rw [hev]; rfl)
        (ih (attempt + 1) _ (by omega) (by simp [hlen]) rfl (by simp [hsucc]))
    | runFinished input run listing =>
      by_cases hst : run.status = "SUCCEEDED"
      · cases hds : run.defaultDatasetId with
        | none =>
          have heq : execLoop events (fuel + 1) attempt r =
              { r with
                  attempts := attempt + 1
                  success := true
                  finalInput := some input
                  runId := some run.id
                  runStatus := some run.status
                  runDurationSecs := run.durationMillis.map (fun d => d / 1000)
                  attemptHistory := r.attemptHistory ++
                    [⟨attempt + 1, input, none⟩] } := by
            simp only [execLoop, if_pos (And.intro hguard hsucc), hev, if_pos hst, hds]
            exact execLoop_of_success events fuel (attempt + 1) _ rfl
          rw [heq]
          refine LoopSpec.succeeded events attempt r _ input run listing hev hst
            ?_ hlen rfl rfl rfl hguard
          rw [hev]
          simp [recordOf, hst, hds]
        | some d =>
          cases listing with
          | ok items =>
            have heq : execLoop events (fuel + 1) attempt r =
                { r with
                    attempts := attempt + 1
                    success := true
                    finalInput := some input
                    runId := some run.id
                    runStatus := some run.status
                    runDurationSecs := run.durationMillis.map (fun d => d / 1000)
                    output := some items
                    attemptHistory := r.attemptHistory ++
                      [⟨attempt + 1, input, none⟩] } := by
              simp only [execLoop, if_pos (And.intro hguard hsucc), hev, if_pos hst, hds]
              exact execLoop_of_success events fuel (attempt + 1) _ rfl
            rw [heq]
            refine LoopSpec.succeeded events attempt r _ input run (Except.ok items) hev hst
              ?_ hlen rfl rfl rfl hguard
            rw [hev]
            simp [recordOf, hst, hds]
          | error message =>
            have heq : execLoop events (fuel + 1) attempt r =
                { r with
                    attempts := attempt + 1
                    success := true
                    finalInput := some input
                    runId := some run.id
                    runStatus := some run.status
                    runDurationSecs := run.durationMillis.map (fun d => d / 1000)
                    attemptHistory := r.attemptHistory ++
                      [⟨attempt + 1, input, some message⟩] } := by
              simp only [execLoop, if_pos (And.intro hguard hsucc), hev, if_pos hst, hds]
              exact execLoop_of_success events fuel (attempt + 1) _ rfl
            rw [heq]
            refine LoopSpec.succeeded events attempt r _ input run (Except.error message)
              hev hst ?_ hlen rfl rfl rfl hguard
            rw [hev]
            simp [recordOf, hst, hds]
      · by_cases hto : run.status = "TIMED-OUT"
        · have heq : execLoop events (fuel + 1) attempt r =
              { r with
                  attempts := attempt + 1
                  attemptHistory := r.attemptHistory ++
                    [⟨attempt + 1, input, some (runFinishedMessage run.status)⟩] } := by
            simp only [execLoop, if_pos (And.intro hguard hsucc), hev, if_neg hst,
              if_pos hto]
          rw [heq]
          refine LoopSpec.halted events attempt r _ ?_ hlen rfl (by simp [hsucc]) hguard
            (Or.inl ⟨input, run, listing, hev, hto⟩)
          rw [hev]
          simp [recordOf, hst]
        · have heq : execLoop events (fuel + 1) attempt r =
              execLoop events fuel (attempt + 1)
                { r with
                    attempts := attempt + 1
                    attemptHistory := r.attemptHistory ++
                      [⟨attempt + 1, input, some (runFinishedMessage run.status)⟩] } := by
            simp only [execLoop, if_pos (And.intro hguard hsucc), hev, if_neg hst,
              if_neg hto]
          rw [heq]
          exact LoopSpec.lift events attempt r
            { r with
                attempts := attempt + 1
                attemptHistory := r.attemptHistory ++
                  [⟨attempt + 1, input, some (runFinishedMessage run.status)⟩] }
            _ (by rw [hev]; simp [recordOf, hst]) hlen
            (by rw [hev]; simp [retryableEvent, hst, hto])
            (ih (attempt + 1) _ (by omega) (by simp [hlen]) rfl (by simp [hsucc]))

/-- The loop specification at the top-level call made by `processActor` when
the schema fetch returns a schema. -/
theorem processActor_loop_spec (storeActor : StoreActor) (schema : JsonObject)
    (events : Nat → AttemptEvent) :
    LoopSpec events 0 { initResult storeActor with inputSchema := schema }
      (processActor storeActor (Except.ok (some schema)) events) :=
  execLoop_spec events MAX_ATTEMPTS 0 _ rfl rfl rfl rfl

/-- A concrete candidate used by the witnesses. -/
def sampleActor : StoreActor :=
  { username := "user"
    name := "actor"
    title := "Actor"
    description := "demo"
    evaluation := none }

/-- A concrete schema object used by the witnesses. -/
def sampleSchema : JsonObject := [("type", "object")]

/-- An event oracle every attempt of which throws an invocation error. -/
def alwaysInvokeError : Nat → AttemptEvent :=
  fun _ => .invokeError emptyObject "ECONNRESET"

/-- An event oracle every attempt of which fails to parse the generation
response. -/
def alwaysParseFailure : Nat → AttemptEvent :=
  fun _ => .parseFailure "not json"

/-- C1: the attempt history recorded by the retry loop never exceeds
`MAX_ATTEMPTS = 5`, and after five consecutive retryable failures the loop
stops at the budget with `success = false` and no success-marked attempt. -/
theorem processActor_attempt_budget (storeActor : StoreActor)
    (schemaFetch : Except String (Option JsonObject)) (schema : JsonObject)
    (events : Nat → AttemptEvent) :
    (processActor storeActor schemaFetch events).attemptHistory.length ≤ MAX_ATTEMPTS ∧
    ((∀ a, 1 ≤ a → a ≤ MAX_ATTEMPTS → retryableEvent (events a) = true) →
      (processActor storeActor (Except.ok (some schema)) events).success = false ∧
      (processActor storeActor (Except.ok (some schema)) events).attemptHistory.length =
        MAX_ATTEMPTS ∧
      ∀ rec ∈ (processActor storeActor (Except.ok (some schema)) events).attemptHistory,
        rec.error.isSome = true) := by
  constructor
  · cases schemaFetch with
    | error message => simp [processActor, MAX_ATTEMPTS]
    | ok schemaOpt =>
      cases schemaOpt with
      | none => simp [processActor, MAX_ATTEMPTS]
      | some s =>
        obtain ⟨-, hmax, -⟩ := processActor_loop_spec storeActor s events
        exact hmax
  · intro hretry
    obtain ⟨-, hmax, hatts, hrec, hretr, htime, hsuc, hstep⟩ :=
      processActor_loop_spec storeActor schema events
    set f := processActor storeActor (Except.ok (some schema)) events with hf
    have hlen1 : 0 < f.attemptHistory.length := hstep (by decide)
    have hsfalse : f.success = false := by
      cases hbs : f.success with
      | false => rfl
      | true =>
        obtain ⟨input, run, listing, hev, hst, -, hlt⟩ := hsuc hbs
        have hr := hretry f.attemptHistory.length (by omega) hmax
        rw [hev] at hr
        simp [retryableEvent, hst] at hr
    have hlen5 : f.attemptHistory.length = MAX_ATTEMPTS := by
      by_contra hne
      have hlt : f.attemptHistory.length < MAX_ATTEMPTS := by omega
      rcases htime hsfalse hlt with ⟨input, run, listing, hev, hst⟩ | ⟨message, hev⟩
      · have hr := hretry f.attemptHistory.length (by omega) (by omega)
        rw [hev] at hr
        simp [retryableEvent, hst] at hr
      · have hr := hretry f.attemptHistory.length (by omega) (by omega)
        rw [hev] at hr
        simp [retryableEvent] at hr
    refine ⟨hsfalse, hlen5, ?_⟩
    intro rec hmem
    obtain ⟨i, hi, hgi⟩ := List.getElem_of_mem hmem
    have h3 := hrec (i + 1) (by omega) (by omega)
    have h4 : f.attemptHistory[i]? = some rec := by
      rw [List.getElem?_eq_getElem hi, hgi]
    have h5 : rec = recordOf (i + 1) (events (i + 1)) := by
      rw [show i + 1 - 1 = i from rfl, h4] at h3
      exact Option.some.inj h3
    rw [h5]
    exact recordOf_error_isSome_of_retryable _ _
      (hretry (i + 1) (by omega) (by rw [hlen5] at hi; omega))

/-- Witness for C1 at a concrete candidate whose every attempt throws an
invocation error. -/
theorem processActor_attempt_budget_witness :
    (processActor sampleActor (Except.ok (some sampleSchema)) alwaysInvokeError).success =
      false ∧
    (processActor sampleActor (Except.ok (some sampleSchema))
      alwaysInvokeError).attemptHistory.length = MAX_ATTEMPTS ∧
    ∀ rec ∈ (processActor sampleActor (Except.ok (some sampleSchema))
      alwaysInvokeError).attemptHistory, rec.error.isSome = true :=
  (processActor_attempt_budget sampleActor (Except.ok (some sampleSchema)) sampleSchema
    alwaysInvokeError).2 (fun _ _ _ => rfl)

/-- C2: a timeout-class run status is recorded and then halts the loop at
once; in particular a first-attempt timeout yields a single attempt and
`success = false`. -/
theorem processActor_timeout_halts (storeActor : StoreActor) (schema : JsonObject)
    (events : Nat → AttemptEvent) :
    (∀ k input run listing, events k = .runFinished input run listing →
      run.status = "TIMED-OUT" → 1 ≤ k →
      k ≤ (processActor storeActor (Except.ok (some schema)) events).attemptHistory.length →
      (processActor storeActor (Except.ok (some schema)) events).attemptHistory.length = k ∧
      (processActor storeActor (Except.ok (some schema)) events).success = false) ∧
    (∀ input run listing, events 1 = .runFinished input run listing →
      run.status = "TIMED-OUT" →
      (processActor storeActor (Except.ok (some schema)) events).attemptHistory.length = 1 ∧
      (processActor storeActor (Except.ok (some schema)) events).attempts = 1 ∧
      (processActor storeActor (Except.ok (some schema)) events).success = false) := by
  obtain ⟨-, hmax, hatts, hrec, hretr, htime, hsuc, hstep⟩ :=
    processActor_loop_spec storeActor schema events
  have main : ∀ k input run listing, events k = .runFinished input run listing →
      run.status = "TIMED-OUT" → 1 ≤ k →
      k ≤ (processActor storeActor (Except.ok (some schema)) events).attemptHistory.length →
      (processActor storeActor (Except.ok (some schema)) events).attemptHistory.length = k ∧
      (processActor storeActor (Except.ok (some schema)) events).success = false := by
    intro k input run listing hev hst hk1 hk2
    have hkl : (processActor storeActor (Except.ok (some schema))
        events).attemptHistory.length = k := by
      by_contra hne
      have hr := hretr k (by omega) (by omega)
      rw [hev] at hr
      simp [retryableEvent, hst] at hr
    refine ⟨hkl, ?_⟩
    cases hbs : (processActor storeActor (Except.ok (some schema)) events).success with
    | false => rfl
    | true =>
      obtain ⟨input2, run2, listing2, hev2, hst2, -, -⟩ := hsuc hbs
      rw [hkl, hev] at hev2
      obtain ⟨-, h2, -⟩ := AttemptEvent.runFinished.inj hev2
      rw [← h2, hst] at hst2
      exact absurd hst2 (by decide)
  refine ⟨main, ?_⟩
  intro input run listing hev hst
  have h1 : 0 < (processActor storeActor (Except.ok (some schema))
      events).attemptHistory.length := hstep (by decide)
  obtain ⟨hl, hs⟩ := main 1 input run listing hev hst (by omega) (by omega)
  exact ⟨hl, by rw [hatts, hl], hs⟩

/-- An event oracle whose first attempt times out. -/
def timeoutFirst : Nat → AttemptEvent :=
  fun _ => .runFinished [("url", "https://example.com")]
    { status := "TIMED-OUT", id := "run-1", durationMillis := none, defaultDatasetId := none }
    (Except.ok [])

/-- Witness for C2: a concrete first-attempt timeout gives one attempt and no
success. -/
theorem processActor_timeout_halts_witness :
    (processActor sampleActor (Except.ok (some sampleSchema))
      timeoutFirst).attemptHistory.length = 1 ∧
    (processActor sampleActor (Except.ok (some sampleSchema)) timeoutFirst).attempts = 1 ∧
    (processActor sampleActor (Except.ok (some sampleSchema)) timeoutFirst).success = false :=
  (processActor_timeout_halts sampleActor sampleSchema timeoutFirst).2
    [("url", "https://example.com")]
    { status := "TIMED-OUT", id := "run-1", durationMillis := none, defaultDatasetId := none }
    (Except.ok []) rfl rfl

/-- C5 (amended): a succeeded outcome always has `finalInput` equal to the
last attempt's input, that last attempt corresponds to a `SUCCEEDED` run, and
all earlier attempts are retryable failures; provided the output-sample
listing call did not reject (it was skipped or returned), the last attempt is
the unique success-marked (error-free) one.  Scenario A (parse failure,
invocation error, success) gives three attempts, `success = true`, and
`finalInput` equal to the attempt-3 input. -/
theorem processActor_success_history (storeActor : StoreActor) (schema : JsonObject)
    (events : Nat → AttemptEvent) :
    ((processActor storeActor (Except.ok (some schema)) events).success = true →
      ∃ input run listing,
        events (processActor storeActor (Except.ok (some schema))
          events).attemptHistory.length = .runFinished input run listing ∧
        run.status = "SUCCEEDED" ∧
        (processActor storeActor (Except.ok (some schema)) events).finalInput = some input ∧
        1 ≤ (processActor storeActor (Except.ok (some schema)) events).attemptHistory.length ∧
        (∀ k rec, 1 ≤ k →
          k < (processActor storeActor (Except.ok (some schema)) events).attemptHistory.length →
          (processActor storeActor (Except.ok (some schema)) events).attemptHistory[k - 1]? =
            some rec →
          rec.error.isSome = true) ∧
        ((run.defaultDatasetId = none ∨ ∃ items, listing = Except.ok items) →
          (processActor storeActor (Except.ok (some schema)) events).attemptHistory[
            (processActor storeActor (Except.ok (some schema))
              events).attemptHistory.length - 1]? =
            some ⟨(processActor storeActor (Except.ok (some schema))
              events).attemptHistory.length, input, none⟩)) ∧
    (∀ rawText input2 message input3 run listing,
      events 1 = .parseFailure rawText →
      events 2 = .invokeError input2 message →
      events 3 = .runFinished input3 run listing → run.status = "SUCCEEDED" →
      (processActor storeActor (Except.ok (some schema)) events).attemptHistory.length = 3 ∧
      (processActor storeActor (Except.ok (some schema)) events).attempts = 3 ∧
      (processActor storeActor (Except.ok (some schema)) events).success = true ∧
      (processActor storeActor (Except.ok (some schema)) events).finalInput = some input3) := by
  obtain ⟨-, hmax, hatts, hrec, hretr, htime, hsuc, hstep⟩ :=
    processActor_loop_spec storeActor schema events
  set f := processActor storeActor (Except.ok (some schema)) events with hf
  constructor
  · intro hbs
    obtain ⟨input, run, listing, hev, hst, hfin, hlt⟩ := hsuc hbs
    refine ⟨input, run, listing, hev, hst, hfin, by omega, ?_, ?_⟩
    · intro k rec hk1 hk2 hgk
      have h3 := hrec k (by omega) (by omega)
      rw [hgk] at h3
      rw [Option.some.inj h3]
      exact recordOf_error_isSome_of_retryable _ _ (hretr k (by omega) hk2)
    · intro hok
      have h3 := hrec f.attemptHistory.length (by omega) (le_refl _)
      rw [hev] at h3
      rcases hok with hds | ⟨items, hlst⟩
      · simpa [recordOf, hst, hds] using h3
      · subst hlst
        cases hds2 : run.defaultDatasetId with
        | none => simpa [recordOf, hst, hds2] using h3
        | some d => simpa [recordOf, hst, hds2] using h3
  · intro rawText input2 message input3 run listing hev1 hev2 hev3 hst
    have hlen1 : 0 < f.attemptHistory.length := hstep (by decide)
    have hne1 : f.attemptHistory.length ≠ 1 := by
      intro h1
      cases hbs : f.success with
      | true =>
        obtain ⟨input4, run4, listing4, hev4, -, -, -⟩ := hsuc hbs
        rw [h1, hev1] at hev4
        cases hev4
      | false =>
        rcases htime hbs (by rw [h1]; decide) with
          ⟨input4, run4, listing4, hev4, -⟩ | ⟨message4, hev4⟩
        · rw [h1, hev1] at hev4
          cases hev4
        · rw [h1, hev1] at hev4
          cases hev4
    have hne2 : f.attemptHistory.length ≠ 2 := by
      intro h1
      cases hbs : f.success with
      | true =>
        obtain ⟨input4, run4, listing4, hev4, -, -, -⟩ := hsuc hbs
        rw [h1, hev2] at hev4
        cases hev4
      | false =>
        rcases htime hbs (by rw [h1]; decide) with
          ⟨input4, run4, listing4, hev4, -⟩ | ⟨message4, hev4⟩
        · rw [h1, hev2] at hev4
          cases hev4
        · rw [h1, hev2] at hev4
          cases hev4
    have hle3 : f.attemptHistory.length ≤ 3 := by
      by_contra h1
      have hr := hretr 3 (by omega) (by omega)
      rw [hev3] at hr
      simp [retryableEvent, hst] at hr
    have hlen3 : f.attemptHistory.length = 3 := by omega
    have hbs : f.success = true := by
      cases hbs : f.success with
      | true => rfl
      | false =>
        rcases htime hbs (by rw [hlen3]; decide) with
          ⟨input4, run4, listing4, hev4, hst4⟩ | ⟨message4, hev4⟩
        · rw [hlen3, hev3] at hev4
          obtain ⟨-, h2, -⟩ := AttemptEvent.runFinished.inj hev4
          rw [← h2, hst] at hst4
          exact absurd hst4 (by decide)
        · rw [hlen3, hev3] at hev4
          cases hev4
    obtain ⟨input4, run4, listing4, hev4, -, hfin, -⟩ := hsuc hbs
    rw [hlen3, hev3] at hev4
    obtain ⟨h1, -, -⟩ := AttemptEvent.runFinished.inj hev4
    exact ⟨hlen3, by rw [hatts, hlen3], hbs, by rw [hfin, h1]⟩

/-- An event oracle giving Scenario A: a parse failure, then an invocation
error, then a successful run whose dataset listing returns. -/
def scenarioA : Nat → AttemptEvent :=
  fun n =>
    if n = 1 then .parseFailure "I cannot help with that"
    else if n = 2 then .invokeError [("startUrls", "x")] "Invalid input: startUrls must be an array"
    else .runFinished [("startUrls", "https://example.com")]
      { status := "SUCCEEDED", id := "run-ok", durationMillis := some 42000,
        defaultDatasetId := some "dataset-ok" }
      (Except.ok [[("title", "hello")]])

/-- Witness for C5 at the concrete Scenario A oracle. -/
theorem processActor_success_history_witness :
    (processActor sampleActor (Except.ok (some sampleSchema))
      scenarioA).attemptHistory.length = 3 ∧
    (processActor sampleActor (Except.ok (some sampleSchema)) scenarioA).attempts = 3 ∧
    (processActor sampleActor (Except.ok (some sampleSchema)) scenarioA).success = true ∧
    (processActor sampleActor (Except.ok (some sampleSchema)) scenarioA).finalInput =
      some [("startUrls", "https://example.com")] :=
  (processActor_success_history sampleActor sampleSchema scenarioA).2
    "I cannot help with that" [("startUrls", "x")]
    "Invalid input: startUrls must be an array"
    [("startUrls", "https://example.com")]
    { status := "SUCCEEDED", id := "run-ok", durationMillis := some 42000,
      defaultDatasetId := some "dataset-ok" }
    (Except.ok [[("title", "hello")]])
    rfl rfl rfl rfl

/-- An event oracle whose run succeeds but whose subsequent dataset listing
call rejects. -/
def listingFailure : Nat → AttemptEvent :=
  fun _ => .runFinished [("url", "https://example.com")]
    { status := "SUCCEEDED", id := "run-2", durationMillis := some 1000,
      defaultDatasetId := some "dataset-1" }
    (Except.error "read ECONNRESET")

/-- Counterexample to C5 as stated: when the run status is `SUCCEEDED` but the
dataset listing call then rejects, the inner catch records that attempt with
the listing error while `success` stays `true` — the outcome has
`succeeded = true` yet every attempt record carries an error, so there is no
success-marked attempt at all. -/
theorem processActor_success_history_counterexample :
    (processActor sampleActor (Except.ok (some sampleSchema)) listingFailure).success =
      true ∧
    (processActor sampleActor (Except.ok (some sampleSchema)) listingFailure).attemptHistory =
      [⟨1, [("url", "https://example.com")], some "read ECONNRESET"⟩] ∧
    ∀ rec ∈ (processActor sampleActor (Except.ok (some sampleSchema))
      listingFailure).attemptHistory, rec.error.isSome = true := by
  refine ⟨rfl, rfl, ?_⟩
  decide

/-- C6: an unparsable generation response is recorded as a retryable attempt
with the parse-failure reason and an empty input, consumes exactly one attempt
slot, and the loop moves on to the next attempt while budget remains. -/
theorem processActor_parse_failure_retry (storeActor : StoreActor)
    (schema : JsonObject) (events : Nat → AttemptEvent) (k : Nat) (rawText : String)
    (hev : events k = .parseFailure rawText) (hk1 : 1 ≤ k)
    (hk2 : k ≤ (processActor storeActor (Except.ok (some schema))
      events).attemptHistory.length) :
    (processActor storeActor (Except.ok (some schema)) events).attemptHistory[k - 1]? =
      some ⟨k, emptyObject, some (parseFailureMessage rawText)⟩ ∧
    (k < MAX_ATTEMPTS →
      k < (processActor storeActor (Except.ok (some schema))
        events).attemptHistory.length) := by
  obtain ⟨-, hmax, hatts, hrec, hretr, htime, hsuc, hstep⟩ :=
    processActor_loop_spec storeActor schema events
  set f := processActor storeActor (Except.ok (some schema)) events with hf
  constructor
  · have h3 := hrec k (by omega) hk2
    rw [hev] at h3
    simpa [recordOf] using h3
  · intro hklt
    by_contra h1
    have hkl : k = f.attemptHistory.length := by omega
    cases hbs : f.success with
    | true =>
      obtain ⟨input4, run4, listing4, hev4, -, -, -⟩ := hsuc hbs
      rw [← hkl, hev] at hev4
      cases hev4
    | false =>
      rcases htime hbs (by omega) with
        ⟨input4, run4, listing4, hev4, -⟩ | ⟨message4, hev4⟩
      · rw [← hkl, hev] at hev4
        cases hev4
      · rw [← hkl, hev] at hev4
        cases hev4

/-- Witness for C6: with every generation response unparsable, attempt 1 is
recorded with the parse-failure reason and the loop continues to attempt 2. -/
theorem processActor_parse_failure_retry_witness :
    (processActor sampleActor (Except.ok (some sampleSchema))
      alwaysParseFailure).attemptHistory[0]? =
      some ⟨1, emptyObject, some (parseFailureMessage "not json")⟩ ∧
    (1 < MAX_ATTEMPTS →
      1 < (processActor sampleActor (Except.ok (some sampleSchema))
        alwaysParseFailure).attemptHistory.length) :=
  processActor_parse_failure_retry sampleActor sampleSchema alwaysParseFailure 1
    "not json" rfl (by decide) (by decide)

/-- C10: a candidate whose build declares no input schema is skipped: no loop
iteration runs, the record has `success = false`, zero attempts, and a single
attempt-0 history entry reading `No input schema found`; batch entries are
computed independently of one another. -/
theorem processActor_no_schema (storeActor : StoreActor)
    (events : Nat → AttemptEvent) (tasks : List ActorTask) (i : Nat) :
    (processActor storeActor (Except.ok none) events).success = false ∧
    (processActor storeActor (Except.ok none) events).attempts = 0 ∧
    (processActor storeActor (Except.ok none) events).finalInput = none ∧
    (processActor storeActor (Except.ok none) events).attemptHistory =
      [⟨0, emptyObject, some "No input schema found"⟩] ∧
    (runBatch tasks)[i]? =
      (tasks[i]?).map (fun t => processActor t.storeActor t.schemaFetch t.events) := by
  refine ⟨rfl, rfl, rfl, rfl, ?_⟩
  simp [runBatch]

/-- C3: the seven weights sum to exactly 1 (hence to 1.0 within 1e-9), the
evaluator's `overallScore` is the weighted sum rounded to one decimal, and for
criterion scores in [1, 10] it lies in [1.0, 10.0]. -/
theorem overallScore_weighted_rubric (s : EvaluationScores)
    (username name title description url : String)
    (strengths weaknesses : List String) (recommendation : String)
    (h1 : 1 ≤ s.intentMatch) (h2 : s.intentMatch ≤ 10)
    (h3 : 1 ≤ s.documentation) (h4 : s.documentation ≤ 10)
    (h5 : 1 ≤ s.pricing) (h6 : s.pricing ≤ 10)
    (h7 : 1 ≤ s.reliability) (h8 : s.reliability ≤ 10)
    (h9 : 1 ≤ s.maintenance) (h10 : s.maintenance ≤ 10)
    (h11 : 1 ≤ s.communityTrust) (h12 : s.communityTrust ≤ 10)
    (h13 : 1 ≤ s.inputComplexity) (h14 : s.inputComplexity ≤ 10) :
    weightsSum WEIGHTS = 1 ∧
    |weightsSum WEIGHTS - 1| ≤ 1 / 1000000000 ∧
    (mkEvaluationResult username name title description url s strengths
      weaknesses recommendation).overallScore =
      (jsRound (overallScoreRaw s * 10) : ℚ) / 10 ∧
    1 ≤ roundedOverallScore s ∧ roundedOverallScore s ≤ 10 := by
  have hw : weightsSum WEIGHTS = 1 := by norm_num [weightsSum, WEIGHTS]
  have hlo : 1 ≤ overallScoreRaw s := by
    simp only [overallScoreRaw, WEIGHTS]
    norm_num
    linarith
  have hhi : overallScoreRaw s ≤ 10 := by
    simp only [overallScoreRaw, WEIGHTS]
    norm_num
    linarith
  have hjlo : (10 : ℤ) ≤ jsRound (overallScoreRaw s * 10) := by
    have he : (⌊(10 : ℚ) + 1/2⌋ : ℤ) = 10 := by
      rw [Int.floor_eq_iff]
      norm_num
    calc (10 : ℤ) = ⌊(10 : ℚ) + 1/2⌋ := he.symm
      _ ≤ ⌊overallScoreRaw s * 10 + 1/2⌋ := Int.floor_le_floor (by linarith)
      _ = jsRound (overallScoreRaw s * 10) := rfl
  have hjhi : jsRound (overallScoreRaw s * 10) ≤ 100 := by
    have he : (⌊(100 : ℚ) + 1/2⌋ : ℤ) = 100 := by
      rw [Int.floor_eq_iff]
      norm_num
    calc jsRound (overallScoreRaw s * 10) = ⌊overallScoreRaw s * 10 + 1/2⌋ := rfl
      _ ≤ ⌊(100 : ℚ) + 1/2⌋ := Int.floor_le_floor (by linarith)
      _ = 100 := he
  have hqlo : (10 : ℚ) ≤ (jsRound (overallScoreRaw s * 10) : ℚ) := by exact_mod_cast hjlo
  have hqhi : (jsRound (overallScoreRaw s * 10) : ℚ) ≤ 100 := by exact_mod_cast hjhi
  refine ⟨hw, by rw [hw]; norm_num, rfl, ?_, ?_⟩
  · rw [roundedOverallScore]
    linarith
  · rw [roundedOverallScore]
    linarith

/-- Witness for C3 at a concrete score vector. -/
theorem overallScore_weighted_rubric_witness :
    weightsSum WEIGHTS = 1 ∧
    1 ≤ roundedOverallScore ⟨7, 8, 6, 9, 5, 4, 10⟩ ∧
    roundedOverallScore ⟨7, 8, 6, 9, 5, 4, 10⟩ ≤ 10 := by
  obtain ⟨hw, -, -, hlo, hhi⟩ :=
    overallScore_weighted_rubric ⟨7, 8, 6, 9, 5, 4, 10⟩ "u" "n" "t" "d" "url" [] [] "r"
      (by norm_num) (by norm_num) (by norm_num) (by norm_num) (by norm_num)
      (by norm_num) (by norm_num) (by norm_num) (by norm_num) (by norm_num)
      (by norm_num) (by norm_num) (by norm_num) (by norm_num)
  exact ⟨hw, hlo, hhi⟩

/-- Transitivity of the ranking comparison. -/
theorem scoreDescLE_trans : ∀ a b c : EvaluationResult,
    scoreDescLE a b → scoreDescLE b c → scoreDescLE a c := by
  intro a b c hab hbc
  simp only [scoreDescLE, decide_eq_true_eq] at hab hbc ⊢
  exact le_trans hbc hab

/-- Totality of the ranking comparison. -/
theorem scoreDescLE_total : ∀ a b : EvaluationResult,
    scoreDescLE a b || scoreDescLE b a := by
  intro a b
  simp only [scoreDescLE]
  rcases le_total a.overallScore b.overallScore with h | h <;> simp [h]

/-- C4: the Ranker returns the scored candidates in descending order of
`overallScore`, stable on ties, truncated to `min K` count, and maps the empty
input to the empty output. -/
theorem ranked_spec (evaluations : List EvaluationResult) (K : Nat) (hK : 1 ≤ K) :
    (ranked evaluations K).length = min K evaluations.length ∧
    (ranked evaluations K).Pairwise (fun a b => b.overallScore ≤ a.overallScore) ∧
    (∀ a b : EvaluationResult, a.overallScore = b.overallScore →
      List.Sublist [a, b] evaluations →
      List.Sublist [a, b] (evaluations.mergeSort scoreDescLE)) ∧
    ranked ([] : List EvaluationResult) K = [] := by
  refine ⟨?_, ?_, ?_, ?_⟩
  · simp [ranked]
  · have hs := List.sorted_mergeSort scoreDescLE_trans scoreDescLE_total evaluations
    have hp : (evaluations.mergeSort scoreDescLE).Pairwise
        (fun a b => b.overallScore ≤ a.overallScore) := by
      refine hs.imp ?_
      intro a b h
      simpa [scoreDescLE] using h
    exact hp.sublist (List.take_sublist _ _)
  · intro a b hab hsub
    refine List.pair_sublist_mergeSort scoreDescLE_trans scoreDescLE_total ?_ hsub
    simp [scoreDescLE, hab]
  · simp [ranked]

/-- A concrete evaluation record used by the ranking witnesses. -/
def mkSampleEval (name : String) (q : ℚ) : EvaluationResult :=
  { actorId := "user/" ++ name
    username := "user"
    name := name
    title := name
    description := "demo"
    url := "https://apify.com/user/" ++ name
    scores := ⟨q, q, q, q, q, q, q⟩
    overallScore := q
    strengths := []
    weaknesses := []
    recommendation := "ok" }

/-- Witness for C4 at a concrete scored list and K = 2. -/
theorem ranked_spec_witness :
    (ranked [mkSampleEval "a" 5, mkSampleEval "b" (74/10), mkSampleEval "c" (74/10)] 2).length =
      min 2 [mkSampleEval "a" 5, mkSampleEval "b" (74/10), mkSampleEval "c" (74/10)].length ∧
    (ranked [mkSampleEval "a" 5, mkSampleEval "b" (74/10), mkSampleEval "c" (74/10)] 2).Pairwise
      (fun a b => b.overallScore ≤ a.overallScore) ∧
    ranked ([] : List EvaluationResult) 2 = [] := by
  obtain ⟨h1, h2, -, h4⟩ :=
    ranked_spec [mkSampleEval "a" 5, mkSampleEval "b" (74/10), mkSampleEval "c" (74/10)] 2
      (by decide)
  exact ⟨h1, h2, h4⟩

/-- C9: re-ranking a list already in descending order of `overallScore`, of
length at most K, returns it unchanged. -/
theorem ranked_idempotent (evaluations : List EvaluationResult) (K : Nat)
    (hsorted : evaluations.Pairwise (fun a b => b.overallScore ≤ a.overallScore))
    (hlen : evaluations.length ≤ K) :
    ranked evaluations K = evaluations := by
  rw [ranked, List.mergeSort_of_sorted
    (hsorted.imp (fun h => by simpa [scoreDescLE] using h))]
  exact List.take_of_length_le hlen

/-- Witness for C9 at a concrete already-descending list. -/
theorem ranked_idempotent_witness :
    ranked [mkSampleEval "a" 8, mkSampleEval "b" 5] 3 =
      [mkSampleEval "a" 8, mkSampleEval "b" 5] :=
  ranked_idempotent [mkSampleEval "a" 8, mkSampleEval "b" 5] 3
    (by simp [List.pairwise_cons, mkSampleEval]; norm_num) (by decide)

/-- Transitivity of the final-output comparison. -/
theorem comparisonLE_trans : ∀ a b c : ComparisonResult,
    comparisonLE a b → comparisonLE b c → comparisonLE a c := by
  intro a b c hab hbc
  simp only [comparisonLE, decide_eq_true_eq] at hab hbc ⊢
  exact le_trans hbc hab

/-- Totality of the final-output comparison. -/
theorem comparisonLE_total : ∀ a b : ComparisonResult,
    comparisonLE a b || comparisonLE b a := by
  intro a b
  simp only [comparisonLE]
  rcases le_total (sortKey a) (sortKey b) with h | h <;> simp [h]

/-- C7: the final records are emitted in descending order of the sort key
`overallScore ?? 0`; when every present score is positive, records with a
missing score come after all records that have one; equal keys keep their
encounter order; and the sort permutes the input. -/
theorem sortedResults_spec (comparisonResults : List ComparisonResult)
    (hpos : ∀ r ∈ comparisonResults, ∀ q : ℚ, r.overallScore = some q → 0 < q) :
    (sortedResults comparisonResults).Pairwise (fun a b => sortKey b ≤ sortKey a) ∧
    (∀ i j : Nat, ∀ ri rj : ComparisonResult, i < j →
      (sortedResults comparisonResults)[i]? = some ri →
      (sortedResults comparisonResults)[j]? = some rj →
      ri.overallScore = none → rj.overallScore = none) ∧
    (∀ a b : ComparisonResult, sortKey a = sortKey b →
      List.Sublist [a, b] comparisonResults →
      List.Sublist [a, b] (sortedResults comparisonResults)) ∧
    (sortedResults comparisonResults).Perm comparisonResults := by
  have hs := List.sorted_mergeSort comparisonLE_trans comparisonLE_total comparisonResults
  have hp : (sortedResults comparisonResults).Pairwise
      (fun a b => sortKey b ≤ sortKey a) := by
    refine hs.imp ?_
    intro a b h
    simpa [comparisonLE] using h
  refine ⟨hp, ?_, ?_, List.mergeSort_perm comparisonResults comparisonLE⟩
  · intro i j ri rj hij hgi hgj hnone
    obtain ⟨hilt, hieq⟩ := List.getElem?_eq_some.mp hgi
    obtain ⟨hjlt, hjeq⟩ := List.getElem?_eq_some.mp hgj
    have hrel := List.pairwise_iff_getElem.mp hp i j hilt hjlt hij
    rw [hieq, hjeq] at hrel
    cases hq : rj.overallScore with
    | none => rfl
    | some q =>
      have hmem : rj ∈ comparisonResults := by
        have h1 : rj ∈ sortedResults comparisonResults := by
          rw [← hjeq]
          exact List.getElem_mem hjlt
        exact List.mem_mergeSort.mp h1
      have hposq := hpos rj hmem q hq
      have hki : sortKey ri = 0 := by simp [sortKey, hnone]
      have hkj : sortKey rj = q := by simp [sortKey, hq]
      rw [hki, hkj] at hrel
      linarith
  · intro a b hab hsub
    refine List.pair_sublist_mergeSort comparisonLE_trans comparisonLE_total ?_ hsub
    simp [comparisonLE, hab]

/-- A concrete comparison record used by the final-sort witness. -/
def sampleRecord (name : String) (q : Option ℚ) : ComparisonResult :=
  { actorId := "user/" ++ name
    actorName := name
    actorTitle := name
    actorDescription := "demo"
    inputSchema := []
    attempts := 1
    attemptHistory := [⟨1, [], none⟩]
    finalInput := some []
    runId := some "r"
    runStatus := some "SUCCEEDED"
    runDurationSecs := none
    output := none
    success := true
    scores := none
    overallScore := q
    strengths := none
    weaknesses := none
    recommendation := none }

/-- Witness for C7: two records tied at 7.4 and one missing-score record; the
tied pair keeps its encounter order in the sorted output. -/
theorem sortedResults_spec_witness :
    (sortedResults [sampleRecord "a" (some (74/10)), sampleRecord "b" (some (74/10)),
      sampleRecord "c" none]).Pairwise (fun a b => sortKey b ≤ sortKey a) ∧
    List.Sublist [sampleRecord "a" (some (74/10)), sampleRecord "b" (some (74/10))]
      (sortedResults [sampleRecord "a" (some (74/10)), sampleRecord "b" (some (74/10)),
        sampleRecord "c" none]) := by
  obtain ⟨h1, -, h3, -⟩ := sortedResults_spec
    [sampleRecord "a" (some (74/10)), sampleRecord "b" (some (74/10)), sampleRecord "c" none]
    (by
      intro r hr q hq
      fin_cases hr <;> simp [sampleRecord] at hq <;> subst hq <;> norm_num)
  refine ⟨h1, h3 _ _ rfl ?_⟩
  exact List.Sublist.cons₂ _ (List.Sublist.cons₂ _ (List.nil_sublist _))

/-- C8: when the user input omits `maxActors`, the top-K parameter used for
ranking and candidate selection is 3. -/
theorem maxActors_default_three (q : String) (evaluations : List EvaluationResult) :
    resolveMaxActors { query := q, maxActors := none } = 3 ∧
    pipelineTopK { query := q, maxActors := none } evaluations =
      ranked evaluations 3 :=
  ⟨rfl, rfl⟩

end ApifyCompare
